import Mathlib

/-!
Verification development for the promptique interactive terminal prompt
engine.  The definitions below are a shallow embedding of the Python
sources (src/promptique): pure data manipulation becomes Lean functions,
stateful methods become explicit state passing, Python `assert` failures
become `Except.error`, and callbacks are represented by opaque numeric
identifiers (each registered closure gets a distinct id).
-/

namespace Promptique

/-- Keys, as used for binding and dispatch (promptique/keys.py wraps
prompt_toolkit key names plus printable characters; dispatch compares keys
by equality).  `Key.any` models the wildcard `keys.Any`. -/
inductive Key where
  | any
  | controlC
  | enter
  | escape
  | up
  | down
  | left
  | right
  | char (c : Char)
  deriving DecidableEq, Repr

/-- Model of `KeyboardListener._key_hooks : defaultdict(list)`: an
insertion-ordered association list from a key to the list of callback ids
bound under it (per-key lists keep registration order, as `list.append`
does). -/
abbrev KeyHooks := List (Key × List Nat)

/-- Model of `self._key_hooks[key].append(fn)` on a `defaultdict(list)`:
appends `fn` to the entry for `k`, creating an empty entry first when the
key is absent. -/
def hooksBind (hooks : KeyHooks) (k : Key) (fn : Nat) : KeyHooks :=
  match hooks with
  | [] => [(k, [fn])]
  | (k', fns) :: rest =>
      if k' = k then (k', fns ++ [fn]) :: rest else (k', fns) :: hooksBind rest k fn

/-- Model of `self._key_hooks.get(key, [])` (plain lookup, no default
insertion). -/
def hooksGet (hooks : KeyHooks) (k : Key) : List Nat :=
  match hooks with
  | [] => []
  | (k', fns) :: rest => if k' = k then fns else hooksGet rest k

/-- State of `KeyboardListener` (promptique/_keyboard.py).
`background_done = none` models "no asyncio.Event created yet" (the
listener was never started); `some b` models an event whose `is_set()` is
`b`.  `active_hooks` holds the task ids of in-flight callback tasks. -/
structure KeyboardListener where
  background_done : Option Bool
  key_hooks : KeyHooks
  active_hooks : List Nat
  is_accepting_keys : Bool
  deriving DecidableEq, Repr

/-- Model of `KeyboardListener.__init__`. -/
def initListener : KeyboardListener :=
  { background_done := none, key_hooks := [], active_hooks := [], is_accepting_keys := false }

/-- Model of `KeyboardListener.bind(key, fn)` (the `**kw` wrapping into a
`functools.partial` produces a fresh closure; callback ids already stand
for closures, so it is the identity here). -/
def KeyboardListener.bind (kb : KeyboardListener) (key : Key) (fn : Nat) : KeyboardListener :=
  { kb with key_hooks := hooksBind kb.key_hooks key fn }

/-- Model of `KeyboardListener._trigger_hooks(key)`: when the listener is
not accepting keys the key is dropped with a logged warning and nothing
fires; otherwise the hooks bound to the exact key followed by the hooks
bound to the wildcard `Any` key are each spawned as a task, in that order.
Returns the updated listener (the spawned task ids join `active_hooks`)
together with the list of callbacks fired, in dispatch order.  (The
source's `if hooks is None: return` guard is dead code: a list is never
`None`.) -/
def triggerHooks (kb : KeyboardListener) (key : Key) : KeyboardListener × List Nat :=
  if kb.is_accepting_keys = false then (kb, [])
  else
    let hooks := hooksGet kb.key_hooks key ++ hooksGet kb.key_hooks Key.any
    ({ kb with active_hooks := kb.active_hooks ++ hooks }, hooks)

/-- Model of `KeyboardListener.simulate(key)`: re-enters the dispatch path
exactly as a real key press would.  The method body contains no
precondition check, so it never fails. -/
def KeyboardListener.simulate (kb : KeyboardListener) (key : Key) :
    Except String (KeyboardListener × List Nat) :=
  .ok (triggerHooks kb key)

/-- Callback id standing for the listener's own `self.stop` bound method,
auto-bound to ControlC by `start` when `ignore_control_c` is false. -/
def stopCallbackId : Nat := 0

/-- Model of `KeyboardListener.start(ignore_control_c)` up to the point
where it blocks on the done event: flips `_is_accepting_keys` on, binds
ControlC to `self.stop` unless suppressed, and creates a fresh (unset)
done event.  The method body performs no already-started precondition
check, so it never fails. -/
def KeyboardListener.start (kb : KeyboardListener) (ignore_control_c : Bool) :
    Except String KeyboardListener :=
  let kb1 := { kb with is_accepting_keys := true }
  let kb2 := if ignore_control_c then kb1 else kb1.bind Key.controlC stopCallbackId
  .ok { kb2 with background_done := some false }

/-- Model of `KeyboardListener.stop(no_wait)` run from task `current_task`
(`none` when not called from inside a callback task): asserts the done
event exists, flips `_is_accepting_keys` off, computes the in-flight hook
tasks other than the current task (these are cancelled in `no_wait` mode
or awaited with a bounded timeout otherwise), then sets the done event.
Returns the final listener and the list of reaped tasks. -/
def KeyboardListener.stop (kb : KeyboardListener) (no_wait : Bool) (current_task : Option Nat) :
    Except String (KeyboardListener × List Nat) :=
  match kb.background_done with
  | none => .error "KeyboardListener has not yet been started"
  | some _ =>
      let kb1 := { kb with is_accepting_keys := false }
      let currently_active_hooks := kb1.active_hooks.filter (fun hook => some hook != current_task)
      .ok ({ kb1 with background_done := some true }, currently_active_hooks)

/-- A started, accepting listener onto which the registration sequence
`regs` of `bind(key, cb)` calls has been applied, in order. -/
def mkStartedListener (regs : List (Key × Nat)) : KeyboardListener :=
  regs.foldl (fun kb p => kb.bind p.1 p.2)
    { background_done := some false, key_hooks := [], active_hooks := [],
      is_accepting_keys := true }

/-- The callback ids registered under key `k`, in registration order. -/
def regsFor (regs : List (Key × Nat)) (k : Key) : List Nat :=
  (regs.filter (fun p => p.1 == k)).map Prod.snd

/-- Prompt status values (promptique/types.py `PromptStatus`). -/
inductive PromptStatus where
  | HIDDEN
  | ACTIVE
  | SUCCESS
  | WARNING
  | ERROR
  | CANCEL
  deriving DecidableEq, Repr

/-- The exception classes relevant to `BasePrompt.__exit__`:
a `KeyboardInterrupt`, or any other exception (identified by a numeric
id so a captured exception can be compared for identity). -/
inductive PyException where
  | keyboardInterrupt
  | otherError (e : Nat)
  deriving DecidableEq, Repr

/-- Model of `promptique.validation.ResponseContext`: the prompt (by id)
together with its raw response. -/
structure RContext where
  promptId : Nat
  response : Option String
  deriving Repr

/-- One registered link: the target prompt (by id) plus the validator the
`decorator` closure built by `BasePrompt.link` consults. -/
structure PromptLink where
  target : Nat
  validator : RContext → Bool

/-- Model of the `BasePrompt` state the claims touch (promptique/_base.py);
prompt text, detail and rendering fields are omitted, prompts are
identified by numeric ids. -/
structure BasePrompt where
  id : Nat
  transient : Bool
  response : Option String
  warning : Option String
  exception : Option Nat
  status : PromptStatus
  linked_prompts : List PromptLink

/-- Model of the `is_active` property: `self._status in ("ACTIVE", "WARNING")`. -/
def BasePrompt.is_active (pr : BasePrompt) : Bool :=
  pr.status == .ACTIVE || pr.status == .WARNING

/-- Model of the `exception` property setter: stores the exception and
moves the status to ERROR. -/
def BasePrompt.setException (pr : BasePrompt) (e : Nat) : BasePrompt :=
  { pr with exception := some e, status := .ERROR }

/-- Model of `BasePrompt.link(next_prompt, validator)`: the decorator is
inserted at position 0 of `_linked_prompts` (see the source comment:
chained links should appear to the reader in registration order once each
is inserted right after this prompt). -/
def BasePrompt.link (pr : BasePrompt) (next_prompt : Nat) (validator : RContext → Bool) :
    BasePrompt :=
  { pr with linked_prompts := ⟨next_prompt, validator⟩ :: pr.linked_prompts }

/-- Model of `Menu` state (promptique/menu.py): the ordered mutable
sequence of prompts (by id) plus the `has_outro` flag. -/
structure Menu where
  prompts : List Nat
  has_outro : Bool
  deriving DecidableEq, Repr

/-- Model of Python `list.insert(i, x)`: inserts before position `i`,
clamping to an append when `i` is at or past the end. -/
def pyInsert {α : Type} (xs : List α) (i : Nat) (x : α) : List α :=
  match i, xs with
  | 0, xs => x :: xs
  | _ + 1, [] => [x]
  | i + 1, y :: ys => y :: pyInsert ys i x

/-- Model of Python `list.index(x)`: the first index holding `x`.  The
`ValueError` raised when `x` is absent is not modeled; every call site in
the claims passes a member. -/
def pyIndex (xs : List Nat) (x : Nat) : Nat :=
  match xs with
  | [] => 0
  | y :: ys => if y = x then 0 else pyIndex ys x + 1

/-- Model of `Menu.add(prompt, after=None)`: defaults `after` to the last
prompt (or the one before a trailing outro), then inserts `prompt` at the
index just past `after`'s current position. -/
def Menu.add (m : Menu) (prompt : Nat) (after : Option Nat) : Menu :=
  let a :=
    match after with
    | none =>
        if m.has_outro then m.prompts.getD (m.prompts.length - 2) 0
        else m.prompts.getD (m.prompts.length - 1) 0
    | some a => a
  { m with prompts := pyInsert m.prompts (pyIndex m.prompts a + 1) prompt }

/-- Model of the `decorator` closure built inside `BasePrompt.link`: call
the link's validator on the response context and, when it approves, add
the target to the owning menu immediately after the context's prompt. -/
def processLink (m : Menu) (ctx : RContext) (l : PromptLink) : Menu :=
  if l.validator ctx then m.add l.target (some ctx.promptId) else m

/-- Model of `BasePrompt.__exit__(class_, exception, traceback)`: a
`KeyboardInterrupt` moves the status to CANCEL; any other exception is
stored via the `exception` setter (status ERROR) and logged; a normal exit
of an active prompt moves the status to SUCCESS (HIDDEN when transient)
and runs every linked decorator, in list order, over a response context
built from the prompt's recorded response.  The method always returns
`True`, so the raised exception (if any) is suppressed; the returned
`Bool` is that value. -/
def BasePrompt.scopeExit (pr : BasePrompt) (m : Menu) (exc : Option PyException) :
    BasePrompt × Menu × Bool :=
  match exc with
  | some .keyboardInterrupt => ({ pr with status := .CANCEL }, m, true)
  | some (.otherError e) => (pr.setException e, m, true)
  | none =>
      if pr.is_active then
        let pr' := { pr with status := if pr.transient then .HIDDEN else .SUCCESS }
        let ctx : RContext := ⟨pr.id, pr.response⟩
        (pr', pr.linked_prompts.foldl (fun acc l => processLink acc ctx l) m, true)
      else (pr, m, true)

/-- One `link(next_prompt, validator)` call, as state transition. -/
def linkStep (pr : BasePrompt) (l : Nat × (RContext → Bool)) : BasePrompt :=
  pr.link l.1 l.2

/-- An ACTIVE, non-transient prompt with id `id0` and recorded response
`resp`, after the sequence `regs` of `link(target, validator)` calls, in
call order. -/
def mkLinkedPrompt (id0 : Nat) (resp : Option String)
    (regs : List (Nat × (RContext → Bool))) : BasePrompt :=
  regs.foldl linkStep
    { id := id0, transient := false, response := resp, warning := none,
      exception := none, status := .ACTIVE, linked_prompts := [] }

/-- Select mode (promptique/prompts/select.py). -/
inductive SelectMode where
  | SINGLE
  | MULTI
  deriving DecidableEq, Repr

/-- Model of `PromptOption`. -/
structure PromptOption where
  text : String
  description : Option String
  is_selected : Bool
  is_highlighted : Bool
  hotkey : Option String
  deriving DecidableEq, Repr

/-- Model of `PromptOption.toggle`: `is_selected = False if is_selected else True`. -/
def PromptOption.toggle (o : PromptOption) : PromptOption :=
  { o with is_selected := if o.is_selected then false else true }

/-- Model of the `Select` prompt state the claims touch: the choices, the
mode, and the inherited `BasePrompt._response` field (which for a `Select`
would hold a list of options). -/
structure Select where
  choices : List PromptOption
  mode : SelectMode
  response : Option (List PromptOption)
  deriving DecidableEq, Repr

/-- Model of the `answer` property: every currently selected option. -/
def Select.answer (s : Select) : List PromptOption :=
  s.choices.filter (fun option => option.is_selected)

/-- Model of `Select.select(choice)`: per option, a matching already
selected option in SINGLE mode is left alone, a matching option otherwise
toggles, and in SINGLE mode every non-matching option is deselected. -/
def Select.select (s : Select) (choice : String) : Select :=
  { s with
    choices := s.choices.map (fun option =>
      if option.text = choice ∧ s.mode = .SINGLE ∧ option.is_selected then option
      else if option.text = choice then option.toggle
      else if s.mode = .SINGLE then { option with is_selected := false }
      else option) }

/-- Model of `Select.highlight(choice)`: the matching option is
highlighted, every other option is un-highlighted. -/
def Select.highlight (s : Select) (choice : String) : Select :=
  { s with
    choices := s.choices.map (fun option =>
      if option.text = choice then { option with is_highlighted := true }
      else { option with is_highlighted := false }) }

/-- Model of `Select._get_highlighted_info` on the choice list: the first
highlighted option with its index, or `none` where the source raises
`ValueError("No option is active.")`. -/
def highlightedInfo (l : List PromptOption) : Option (Nat × PromptOption) :=
  match l with
  | [] => none
  | o :: os =>
      if o.is_highlighted then some (0, o)
      else (highlightedInfo os).map (fun p => (p.1 + 1, p.2))

/-- The exceptions the Select input handlers can raise. -/
inductive PyError where
  | valueError
  | attributeError
  deriving DecidableEq, Repr

/-- Model of `KeyPressContext` (promptique/_keyboard.py), the context the
listener passes to every hook: its fields are `key`, `keyboard` and
`when` (the back-reference and timestamp are omitted here).  It has no
`key_press` field. -/
structure KeyPressContext where
  key : Key
  deriving DecidableEq, Repr

/-- Model of `Select._input_highlighter(ctx)` (select.py lines 81-100).
Line 83 fetches the highlighted option — `_get_highlighted_info` raises
`ValueError("No option is active.")` when nothing is highlighted — and
line 84 computes the side-effect-free `more_than_one_option`.  Line 86
then evaluates `ctx.key_press.key`; the `KeyPressContext` imported from
`promptique._keyboard` has no `key_press` attribute (`key_press` belongs
to the old context class in `_input.py`), so the access raises
`AttributeError` on every call and the circular move / re-select logic of
lines 86-100 is unreachable. -/
def Select.input_highlighter (s : Select) (_ctx : KeyPressContext) : Except PyError Select :=
  match highlightedInfo s.choices with
  | none => .error .valueError
  | some _ => .error .attributeError

/-- Model of `Select._input_validate(ctx)`: run the selection validator on
the current answer; when it accepts, simulate ControlC (this unwinds the
blocking listener, signalling completion — the returned Bool).  Nothing is
ever assigned to the prompt's `_response` field. -/
def Select.input_validate (s : Select) (validator : Select → List PromptOption → Bool) :
    Select × Bool :=
  if validator s s.answer then (s, true) else (s, false)

/-- Model of `_noop_always_valid(prompt, answer)`, the default selection
validator. -/
def selectNoopAlwaysValid : Select → List PromptOption → Bool := fun _ _ => true

/-- Model of the list-of-strings branch of the `_convert_string_to_choice`
model validator: each string becomes an option highlighted only at index
0, then — when no option is selected — the first option is marked
selected.  The source's `data["choices"][0]` access fails on an empty
choice list, modeled as `none`. -/
def mkSelectFromStrings (texts : List String) (mode : SelectMode) : Option Select :=
  let opts := texts.enum.map (fun p =>
    { text := p.2, description := none, is_selected := false,
      is_highlighted := decide (p.1 = 0), hotkey := none : PromptOption })
  if opts.any (fun choice => choice.is_selected) then some ⟨opts, mode, none⟩
  else
    match opts with
    | [] => none
    | o :: os => some ⟨{ o with is_selected := true } :: os, mode, none⟩

/-- Model of the `UserInput` state the claims touch
(promptique/prompts/input.py). -/
structure UserInput where
  buffer : List Char
  prompt : String
  response : Option String
  deriving DecidableEq, Repr

/-- Model of `UserInput.buffer_as_string()` (off-screen variant):
`"".join(self._buffer)`. -/
def UserInput.buffer_as_string (u : UserInput) : String :=
  String.mk u.buffer

/-- Model of `UserInput._interact_validate(ctx, original_prompt)`: build a
response context from the buffer; when the input validator accepts,
restore the prompt text, record the response and simulate ControlC
(signalling completion — the returned Bool); when it rejects, clear the
buffer. -/
def UserInput.interact_validate (u : UserInput) (input_validator : String → Bool)
    (original_prompt : String) : UserInput × Bool :=
  let r := u.buffer_as_string
  if input_validator r then
    ({ u with prompt := original_prompt, response := some r }, true)
  else
    ({ u with buffer := [] }, false)

/-- Model of the `FileInput` state the claims touch; the response is a
`pathlib.Path`, modeled by its string. -/
structure FileInput where
  buffer : List Char
  prompt : String
  response : Option String
  suggestions : List String
  deriving DecidableEq, Repr

/-- Model of `FileInput._interact_validate(ctx, original_prompt)`: build a
path response from the buffer; when the input validator accepts, restore
the prompt text, record the response, drop the suggestions and simulate
ControlC (signalling completion).  The method has no rejection branch: a
rejected input leaves the state untouched. -/
def FileInput.interact_validate (f : FileInput) (input_validator : String → Bool)
    (original_prompt : String) : FileInput × Bool :=
  let r := String.mk f.buffer
  if input_validator r then
    ({ f with prompt := original_prompt, response := some r, suggestions := [] }, true)
  else
    (f, false)

/-- Spinner icon location (promptique/prompts/info.py). -/
inductive SpinnerLocation where
  | MARKER
  | DETAIL
  deriving DecidableEq, Repr

/-- Model of the `Spinner` state the claims touch.  `marker_static` is the
inherited `BasePrompt._marker_static` field (the marker override the
`marker` property reads); `marker_stray` is the otherwise undeclared
`_marker` attribute that the last line of `Spinner.interactivity`
assigns. -/
structure Spinner where
  marker_static : Option String
  marker_stray : Option String
  detail : Option String
  icons : List String
  location : SpinnerLocation
  deriving DecidableEq, Repr

/-- Model of the `update_visible_icon` partial: `setattr(self, "marker",
icon)` goes through the `marker` property setter into `_marker_static`;
DETAIL targets the `detail` field. -/
def Spinner.update_visible_icon (sp : Spinner) (icon : String) : Spinner :=
  match sp.location with
  | .MARKER => { sp with marker_static := some icon }
  | .DETAIL => { sp with detail := some icon }

/-- The `k`-th value produced by `itertools.cycle(icons)` (0-based). -/
def iconAt (icons : List String) (k : Nat) : String :=
  icons.getD (k % icons.length) ""

/-- Model of `Spinner.interactivity(live)` where the background thread is
observed alive for `ticks` loop iterations: one icon update before the
loop, one per iteration, and after the loop the source line
`self._marker = None` — which assigns the undeclared `_marker` attribute,
not the `_marker_static` field behind the `marker` property. -/
def Spinner.interactivity (sp : Spinner) (ticks : Nat) : Spinner :=
  { (List.range ticks).foldl (fun s k => s.update_visible_icon (iconAt sp.icons (k + 1)))
      (sp.update_visible_icon (iconAt sp.icons 0)) with
    marker_stray := none }

/-- The default icon cycle of `Spinner`. -/
def defaultIcons : List String := ["◒", "◐", "◓", "◑"]

/-! Helper lemmas about the binding table. -/

theorem hooksGet_hooksBind (hooks : KeyHooks) (k' k : Key) (c : Nat) :
    hooksGet (hooksBind hooks k' c) k =
      if k' = k then hooksGet hooks k ++ [c] else hooksGet hooks k := by
  induction hooks with
  | nil =>
      simp only [hooksBind, hooksGet]
      by_cases h : k' = k <;> simp [h]
  | cons p rest ih =>
      obtain ⟨k'', fns⟩ := p
      by_cases h1 : k'' = k'
      · subst h1
        by_cases h2 : k'' = k
        · subst h2; simp [hooksBind, hooksGet]
        · simp [hooksBind, hooksGet, h2]
      · by_cases h2 : k'' = k
        · subst h2
          have h3 : k' ≠ k'' := fun h => h1 h.symm
          simp [hooksBind, hooksGet, h1, h3]
        · simp [hooksBind, hooksGet, h1, h2, ih]

theorem regsFor_cons (p : Key × Nat) (rest : List (Key × Nat)) (k : Key) :
    regsFor (p :: rest) k = (if p.1 = k then [p.2] else []) ++ regsFor rest k := by
  by_cases h : p.1 = k <;> simp [regsFor, List.filter_cons, h]

theorem hooksGet_foldl_bind (regs : List (Key × Nat)) :
    ∀ (kb : KeyboardListener) (k : Key),
      hooksGet ((regs.foldl (fun kb p => kb.bind p.1 p.2) kb)).key_hooks k
        = hooksGet kb.key_hooks k ++ regsFor regs k := by
  induction regs with
  | nil => intro kb k; simp [regsFor]
  | cons p rest ih =>
      intro kb k
      simp only [List.foldl_cons]
      rw [ih, regsFor_cons]
      show hooksGet (hooksBind kb.key_hooks p.1 p.2) k ++ regsFor rest k = _
      rw [hooksGet_hooksBind]
      by_cases h : p.1 = k <;> simp [h]

theorem mkStartedListener_accepting (regs : List (Key × Nat)) :
    (mkStartedListener regs).is_accepting_keys = true := by
  have key : ∀ (regs : List (Key × Nat)) (kb : KeyboardListener),
      (regs.foldl (fun kb p => kb.bind p.1 p.2) kb).is_accepting_keys = kb.is_accepting_keys := by
    intro regs
    induction regs with
    | nil => intro kb; rfl
    | cons p rest ih => intro kb; simp only [List.foldl_cons]; rw [ih]; rfl
  exact key regs _

theorem hooksGet_mkStartedListener (regs : List (Key × Nat)) (k : Key) :
    hooksGet (mkStartedListener regs).key_hooks k = regsFor regs k := by
  unfold mkStartedListener
  rw [hooksGet_foldl_bind]
  simp [hooksGet]

theorem trigger_mkStartedListener (regs : List (Key × Nat)) (k : Key) :
    (triggerHooks (mkStartedListener regs) k).2 = regsFor regs k ++ regsFor regs Key.any := by
  unfold triggerHooks
  rw [mkStartedListener_accepting]
  simp [hooksGet_mkStartedListener]

theorem count_map_snd (regs : List (Key × Nat)) (c : Nat) :
    (regs.map Prod.snd).count c = (regs.filter (fun p => p.2 == c)).length := by
  induction regs with
  | nil => rfl
  | cons p rest ih =>
      simp only [List.map_cons, List.count_cons, List.filter_cons, ih]
      by_cases h : p.2 = c <;> simp [h] <;> omega

theorem count_regsFor (regs : List (Key × Nat)) (k : Key) (c : Nat) :
    (regsFor regs k).count c = (regs.filter (fun p => p.1 == k && p.2 == c)).length := by
  induction regs with
  | nil => rfl
  | cons p rest ih =>
      rw [regsFor_cons]
      by_cases h1 : p.1 = k
      · by_cases h2 : p.2 = c <;>
          simp [h1, h2, List.filter_cons, List.count_cons, ih] <;> omega
      · simp [h1, List.filter_cons, ih]

theorem length_filter_add_le {α : Type} (q1 q2 q : α → Bool)
    (hq1 : ∀ a, q1 a = true → q a = true) (hq2 : ∀ a, q2 a = true → q a = true)
    (hdisj : ∀ a, ¬(q1 a = true ∧ q2 a = true)) (l : List α) :
    (l.filter q1).length + (l.filter q2).length ≤ (l.filter q).length := by
  induction l with
  | nil => simp
  | cons a t ih =>
      simp only [List.filter_cons]
      cases hc1 : q1 a with
      | false =>
          cases hc2 : q2 a with
          | false => cases hc : q a <;> simp [hc] <;> omega
          | true => have hq := hq2 a hc2; simp [hq]; omega
      | true =>
          cases hc2 : q2 a with
          | false => have hq := hq1 a hc1; simp [hq]; omega
          | true => exact absurd ⟨hc1, hc2⟩ (hdisj a)

theorem filter_two_keys_le (regs : List (Key × Nat)) (k1 k2 : Key) (h : k1 ≠ k2) (c : Nat) :
    (regs.filter (fun p => p.1 == k1 && p.2 == c)).length
      + (regs.filter (fun p => p.1 == k2 && p.2 == c)).length
      ≤ (regs.filter (fun p => p.2 == c)).length := by
  refine length_filter_add_le _ _ _ ?_ ?_ ?_ regs
  · intro a ha
    exact ((Bool.and_eq_true _ _).mp ha).2
  · intro a ha
    exact ((Bool.and_eq_true _ _).mp ha).2
  · rintro a ⟨ha1, ha2⟩
    have h1 : a.1 = k1 := by simpa using ((Bool.and_eq_true _ _).mp ha1).1
    have h2 : a.1 = k2 := by simpa using ((Bool.and_eq_true _ _).mp ha2).1
    exact h (h1.symm.trans h2)

theorem mem_regsFor {regs : List (Key × Nat)} {k : Key} {c : Nat} :
    c ∈ regsFor regs k ↔ ∃ p, p ∈ regs ∧ p.1 = k ∧ p.2 = c := by
  simp only [regsFor, List.mem_map, List.mem_filter, beq_iff_eq]
  constructor
  · rintro ⟨p, ⟨hp, hk⟩, hc⟩; exact ⟨p, hp, hk, hc⟩
  · rintro ⟨p, hp, hk, hc⟩; exact ⟨p, ⟨hp, hk⟩, hc⟩

/-- C1 (amended to exclude dispatching the wildcard key itself): for every
sequence of `bind` calls on a started, accepting listener and one dispatch
of any key `k` other than `Any`, the fired callbacks are exactly the ones
bound to `k` (in registration order) followed by the ones bound to the
wildcard `Any` (in registration order); each callback bound to `k` or to
`Any` fires exactly once, and no callback bound only to other concrete
keys fires. -/
theorem C1_dispatch (regs : List (Key × Nat)) (k : Key) (hk : k ≠ Key.any)
    (hnd : (regs.map Prod.snd).Nodup) :
    (triggerHooks (mkStartedListener regs) k).2 = regsFor regs k ++ regsFor regs Key.any
    ∧ (∀ p ∈ regs, p.1 = k ∨ p.1 = Key.any →
        ((triggerHooks (mkStartedListener regs) k).2).count p.2 = 1)
    ∧ (∀ p ∈ regs, p.1 ≠ k → p.1 ≠ Key.any →
        p.2 ∉ (triggerHooks (mkStartedListener regs) k).2) := by
  have hfired := trigger_mkStartedListener regs k
  refine ⟨hfired, ?_, ?_⟩
  · intro p hp hcase
    rw [hfired, List.count_append, count_regsFor, count_regsFor]
    have hub := filter_two_keys_le regs k Key.any hk p.2
    rw [← count_map_snd] at hub
    have hmem : p.2 ∈ regs.map Prod.snd := List.mem_map.mpr ⟨p, hp, rfl⟩
    have hone : (regs.map Prod.snd).count p.2 = 1 := List.count_eq_one_of_mem hnd hmem
    rw [hone] at hub
    have hlb : 0 < (regs.filter (fun q => q.1 == k && q.2 == p.2)).length
        ∨ 0 < (regs.filter (fun q => q.1 == Key.any && q.2 == p.2)).length := by
      rcases hcase with hcase | hcase
      · exact Or.inl (List.length_pos_of_mem (List.mem_filter.mpr ⟨hp, by simp [hcase]⟩))
      · exact Or.inr (List.length_pos_of_mem (List.mem_filter.mpr ⟨hp, by simp [hcase]⟩))
    omega
  · intro p hp h1 h2 hmem
    rw [hfired] at hmem
    rcases List.mem_append.mp hmem with hm | hm
    · obtain ⟨q, hq, hqk, hqc⟩ := mem_regsFor.mp hm
      have : q = p := List.inj_on_of_nodup_map hnd hq hp hqc
      exact h1 (this ▸ hqk)
    · obtain ⟨q, hq, hqk, hqc⟩ := mem_regsFor.mp hm
      have : q = p := List.inj_on_of_nodup_map hnd hq hp hqc
      exact h2 (this ▸ hqk)

/-- C1 counterexample: dispatching the wildcard key `Any` itself triggers
a callback bound to `Any` twice (the dispatch list concatenates the hooks
for the pressed key with the hooks for `Any`), refuting the claim's
"triggered exactly once" at this input. -/
theorem C1_counterexample :
    ((triggerHooks (mkStartedListener [(Key.any, 5)]) Key.any).2).count 5 = 2 := by decide

/-- C1 witness: the amended dispatch theorem applied to a concrete
registration sequence. -/
theorem C1_witness :
    (Key.enter ≠ Key.any
      ∧ (([(Key.enter, 1), (Key.any, 2), (Key.escape, 3)].map Prod.snd).Nodup))
    ∧ ((triggerHooks (mkStartedListener [(Key.enter, 1), (Key.any, 2), (Key.escape, 3)])
          Key.enter).2
        = regsFor [(Key.enter, 1), (Key.any, 2), (Key.escape, 3)] Key.enter
            ++ regsFor [(Key.enter, 1), (Key.any, 2), (Key.escape, 3)] Key.any
      ∧ (∀ p ∈ [(Key.enter, 1), (Key.any, 2), (Key.escape, 3)],
            p.1 = Key.enter ∨ p.1 = Key.any →
          ((triggerHooks (mkStartedListener [(Key.enter, 1), (Key.any, 2), (Key.escape, 3)])
              Key.enter).2).count p.2 = 1)
      ∧ (∀ p ∈ [(Key.enter, 1), (Key.any, 2), (Key.escape, 3)],
            p.1 ≠ Key.enter → p.1 ≠ Key.any →
          p.2 ∉ (triggerHooks (mkStartedListener [(Key.enter, 1), (Key.any, 2), (Key.escape, 3)])
              Key.enter).2)) :=
  ⟨⟨by decide, by decide⟩, C1_dispatch _ _ (by decide) (by decide)⟩

/-- C4 counterexample: calling `start` on an already started listener does
not fail — the method body has no already-started precondition, it simply
re-initializes the listener — refuting the claim's "start() on a listener
that has already been started fails". -/
theorem C4_counterexample :
    ((initListener.start false >>= fun kb1 => kb1.start false)).isOk = true := by rfl

/-- C4 (amended): only `stop()` before `start()` fails fast (the assert on
the missing done event); `simulate()` before `start()` succeeds silently,
dropping the key with a logged warning and triggering no callback; and
`start()` on an already started listener succeeds, re-initializing the
done event. -/
theorem C4_lifecycle (no_wait : Bool) (cur : Option Nat) (k : Key) :
    initListener.stop no_wait cur = .error "KeyboardListener has not yet been started"
    ∧ initListener.simulate k = .ok (initListener, [])
    ∧ ((initListener.start false >>= fun kb1 => kb1.start false)).isOk = true :=
  ⟨rfl, rfl, rfl⟩

/-- C8: starting a listener and stopping it before any key event completes
without waiting on any in-flight task (the reaped list is empty, so no
await can deadlock); afterwards the listener is not accepting and the done
event is set, and any key dispatched then is dropped — the state is
unchanged and no bound callback fires. -/
theorem C8_start_stop (ignore_control_c : Bool) :
    ∃ kb1 kb2, initListener.start ignore_control_c = .ok kb1
      ∧ kb1.stop false none = .ok (kb2, [])
      ∧ kb2.is_accepting_keys = false
      ∧ kb2.background_done = some true
      ∧ ∀ k, triggerHooks kb2 k = (kb2, []) := by
  cases ignore_control_c <;> exact ⟨_, _, rfl, rfl, rfl, rfl, fun k => rfl⟩

/-- C10: `stop` never reaps the task it is running inside: the reaped
in-flight hooks are exactly the active hooks other than the current task,
and the done event still fires. -/
theorem C10_stop_excludes_current (kb : KeyboardListener) (no_wait : Bool) (cur : Nat)
    (h : kb.background_done.isSome = true) :
    ∃ kb' reaped, kb.stop no_wait (some cur) = .ok (kb', reaped)
      ∧ cur ∉ reaped
      ∧ (∀ t ∈ kb.active_hooks, t ≠ cur → t ∈ reaped)
      ∧ (∀ t ∈ reaped, t ∈ kb.active_hooks)
      ∧ kb'.background_done = some true := by
  obtain ⟨b, hb⟩ : ∃ b, kb.background_done = some b := by
    cases hdone : kb.background_done with
    | none => rw [hdone] at h; simp at h
    | some b => exact ⟨b, rfl⟩
  unfold KeyboardListener.stop
  rw [hb]
  refine ⟨_, _, rfl, ?_, ?_, ?_, rfl⟩
  · intro hmem
    have := (List.mem_filter.mp hmem).2
    simp at this
  · intro t ht hne
    exact List.mem_filter.mpr ⟨ht, by simp [hne]⟩
  · intro t ht
    exact (List.mem_filter.mp ht).1

/-- C7: on scoped-activation exit, a KeyboardInterrupt moves the status
to CANCEL; any other exception moves the status to ERROR and is stored on
the prompt; and in every case (exception or not) `__exit__` returns
`True`, suppressing the exception. -/
theorem C7_exit_failures (pr : BasePrompt) (m : Menu) (exc : Option PyException) :
    (pr.scopeExit m (some .keyboardInterrupt)).1.status = .CANCEL
    ∧ (∀ e, (pr.scopeExit m (some (.otherError e))).1.status = .ERROR
        ∧ (pr.scopeExit m (some (.otherError e))).1.exception = some e)
    ∧ (pr.scopeExit m exc).2.2 = true := by
  refine ⟨rfl, fun e => ⟨rfl, rfl⟩, ?_⟩
  cases exc with
  | none =>
      simp only [BasePrompt.scopeExit]
      split <;> rfl
  | some e => cases e <;> rfl

/-! Helper lemmas for link processing (C5). -/

theorem foldl_link_linked_prompts (regs : List (Nat × (RContext → Bool))) :
    ∀ pr : BasePrompt,
      (regs.foldl linkStep pr).linked_prompts
        = (regs.map (fun l => PromptLink.mk l.1 l.2)).reverse ++ pr.linked_prompts := by
  induction regs with
  | nil => intro pr; simp
  | cons r rest ih =>
      intro pr
      simp only [List.foldl_cons, List.map_cons, List.reverse_cons]
      rw [ih]
      simp [linkStep, BasePrompt.link]

theorem foldl_link_fields (regs : List (Nat × (RContext → Bool))) :
    ∀ pr : BasePrompt,
      (regs.foldl linkStep pr).id = pr.id
      ∧ (regs.foldl linkStep pr).status = pr.status
      ∧ (regs.foldl linkStep pr).response = pr.response := by
  induction regs with
  | nil => intro pr; exact ⟨rfl, rfl, rfl⟩
  | cons r rest ih =>
      intro pr
      simp only [List.foldl_cons]
      exact ih (linkStep pr r)

theorem pyIndex_append_notin (pre : List Nat) (p : Nat) (rest : List Nat) (hpre : p ∉ pre) :
    pyIndex (pre ++ p :: rest) p = pre.length := by
  induction pre with
  | nil => simp [pyIndex]
  | cons a t ih =>
      have ha : a ≠ p := fun h => hpre (h ▸ List.mem_cons_self a t)
      have ht : p ∉ t := fun h => hpre (List.mem_cons_of_mem a h)
      simp [pyIndex, ha, ih ht]

theorem pyInsert_after (pre : List Nat) (p : Nat) (rest : List Nat) (t : Nat) :
    pyInsert (pre ++ p :: rest) (pre.length + 1) t = pre ++ p :: t :: rest := by
  induction pre with
  | nil => simp [pyInsert]
  | cons a l ih => simp [pyInsert, ih]

theorem menu_add_after (pre rest : List Nat) (p t : Nat) (ho : Bool) (hpre : p ∉ pre) :
    Menu.add ⟨pre ++ p :: rest, ho⟩ t (some p) = ⟨pre ++ p :: t :: rest, ho⟩ := by
  simp only [Menu.add]
  rw [pyIndex_append_notin pre p rest hpre, pyInsert_after]

theorem processLinks_foldr (ctx : RContext) (pre rest : List Nat) (ho : Bool)
    (hpre : ctx.promptId ∉ pre) :
    ∀ regs : List (Nat × (RContext → Bool)), (∀ r ∈ regs, r.1 ≠ ctx.promptId) →
      ((regs.map (fun l => PromptLink.mk l.1 l.2)).foldr
          (fun l acc => processLink acc ctx l) ⟨pre ++ ctx.promptId :: rest, ho⟩)
        = ⟨pre ++ ctx.promptId :: ((regs.filter (fun r => r.2 ctx)).map Prod.fst ++ rest), ho⟩ := by
  intro regs
  induction regs with
  | nil => intro _; simp
  | cons r rest' ih =>
      intro htargets
      have ht' : ∀ q ∈ rest', q.1 ≠ ctx.promptId :=
        fun q hq => htargets q (List.mem_cons_of_mem r hq)
      simp only [List.map_cons, List.foldr_cons]
      rw [ih ht']
      simp only [processLink, List.filter_cons]
      cases hv : r.2 ctx with
      | false => simp
      | true =>
          simp only [if_pos rfl]
          have := menu_add_after pre
            ((rest'.filter (fun q => q.2 ctx)).map Prod.fst ++ rest) ctx.promptId r.1 ho hpre
          simpa using this

/-- C5: when an ACTIVE prompt exits normally, its registered links are
held most-recently-registered first (`link` inserts at the head), they
are evaluated sequentially over a response context carrying the prompt's
response, and each approving link inserts its target into the owning menu
immediately after this prompt — so the approved targets end up after the
prompt in registration order, while non-approving links leave the menu
unchanged. -/
theorem C5_link_processing (regs : List (Nat × (RContext → Bool))) (id0 : Nat)
    (resp : Option String) (pre rest : List Nat) (ho : Bool)
    (hpre : id0 ∉ pre) (htargets : ∀ r ∈ regs, r.1 ≠ id0) :
    (mkLinkedPrompt id0 resp regs).linked_prompts
      = (regs.map (fun l => PromptLink.mk l.1 l.2)).reverse
    ∧ ((mkLinkedPrompt id0 resp regs).scopeExit ⟨pre ++ id0 :: rest, ho⟩ none).2.1
      = ⟨pre ++ id0 :: ((regs.filter (fun r => r.2 ⟨id0, resp⟩)).map Prod.fst ++ rest), ho⟩ := by
  have hlinked := foldl_link_linked_prompts regs
    { id := id0, transient := false, response := resp, warning := none,
      exception := none, status := .ACTIVE, linked_prompts := [] }
  simp only [List.append_nil] at hlinked
  have hfields := foldl_link_fields regs
    { id := id0, transient := false, response := resp, warning := none,
      exception := none, status := .ACTIVE, linked_prompts := [] }
  obtain ⟨hid, hst, hresp⟩ := hfields
  refine ⟨hlinked, ?_⟩
  have hact : (mkLinkedPrompt id0 resp regs).is_active = true := by
    simp [BasePrompt.is_active, mkLinkedPrompt, hst]
  simp only [BasePrompt.scopeExit, hact, if_pos]
  show ((mkLinkedPrompt id0 resp regs).linked_prompts.foldl (fun acc l =>
      processLink acc ⟨(mkLinkedPrompt id0 resp regs).id,
        (mkLinkedPrompt id0 resp regs).response⟩ l) ⟨pre ++ id0 :: rest, ho⟩)
    = ⟨pre ++ id0 :: ((regs.filter (fun r => r.2 ⟨id0, resp⟩)).map Prod.fst ++ rest), ho⟩
  rw [show (mkLinkedPrompt id0 resp regs).id = id0 from hid,
    show (mkLinkedPrompt id0 resp regs).response = resp from hresp,
    show (mkLinkedPrompt id0 resp regs).linked_prompts
      = (regs.map (fun l => PromptLink.mk l.1 l.2)).reverse from hlinked]
  rw [List.foldl_reverse]
  exact processLinks_foldr ⟨id0, resp⟩ pre rest ho hpre regs htargets

/-- C5 witness: prompt 1 sits between prompts 0 and 2; it was linked
first to target 10 (validator approves response "x") and then to target
11 (validator always rejects); exiting with response "x" inserts 10
immediately after prompt 1 and leaves 11 out. -/
theorem C5_witness :
    ((1 : Nat) ∉ [0]
      ∧ ∀ r ∈ ([(10, fun ctx => ctx.response == some "x"), (11, fun _ => false)]
          : List (Nat × (RContext → Bool))), r.1 ≠ 1)
    ∧ ((mkLinkedPrompt 1 (some "x") [(10, fun ctx => ctx.response == some "x"),
          (11, fun _ => false)]).linked_prompts
        = (([(10, fun ctx => ctx.response == some "x"), (11, fun _ => false)]
            : List (Nat × (RContext → Bool))).map (fun l => PromptLink.mk l.1 l.2)).reverse
      ∧ ((mkLinkedPrompt 1 (some "x") [(10, fun ctx => ctx.response == some "x"),
            (11, fun _ => false)]).scopeExit ⟨[0] ++ 1 :: [2], false⟩ none).2.1
        = ⟨[0] ++ 1 :: ((([(10, fun ctx => ctx.response == some "x"), (11, fun _ => false)]
              : List (Nat × (RContext → Bool))).filter
                (fun r => r.2 ⟨1, some "x"⟩)).map Prod.fst ++ [2]), false⟩) :=
  ⟨⟨by decide, by decide⟩, C5_link_processing _ 1 (some "x") [0] [2] false (by decide) (by decide)⟩

/-! Helper lemmas for the Spinner (C9). -/

theorem update_visible_icon_MARKER (s : Spinner) (h : s.location = .MARKER) (i : String) :
    s.update_visible_icon i = { s with marker_static := some i } := by
  cases s with
  | mk ms mstray detail icons loc =>
      cases loc with
      | MARKER => rfl
      | DETAIL => exact absurd h (by simp)

theorem fold_update_marker (s0 : Spinner) (h : s0.location = .MARKER) (g : Nat → String) :
    ∀ n : Nat, (List.range (n + 1)).foldl (fun s k => s.update_visible_icon (g k)) s0
      = { s0 with marker_static := some (g n) } := by
  intro n
  induction n with
  | zero =>
      simp only [List.range_succ, List.range_zero, List.nil_append, List.foldl_cons,
        List.foldl_nil]
      exact update_visible_icon_MARKER s0 h (g 0)
  | succ m ih =>
      rw [List.range_succ, List.foldl_append, ih]
      simp only [List.foldl_cons, List.foldl_nil]
      rw [update_visible_icon_MARKER _ (show ({ s0 with
        marker_static := some (g m) } : Spinner).location = .MARKER from h)]

theorem spinner_interactivity_marker (sp : Spinner) (h : sp.location = .MARKER) (ticks : Nat) :
    (sp.interactivity ticks).marker_static = some (iconAt sp.icons ticks)
    ∧ (sp.interactivity ticks).marker_stray = none := by
  unfold Spinner.interactivity
  rw [update_visible_icon_MARKER sp h]
  cases ticks with
  | zero =>
      simp only [List.range_zero, List.foldl_nil]
      exact ⟨by simp, by simp⟩
  | succ m =>
      rw [fold_update_marker { sp with marker_static := some (iconAt sp.icons 0) }
        (show ({ sp with marker_static := some (iconAt sp.icons 0) } : Spinner).location
          = .MARKER from h) (fun k => iconAt sp.icons (k + 1)) m]
      exact ⟨by simp, by simp⟩

/-- C9: evaluating `Spinner.interactivity` at the failing input — a
MARKER-location spinner with the default icons, for any number of
observed ticks — leaves the marker override (`_marker_static`, the field
read by the `marker` property) holding the last cycled glyph, not `None`:
the final source line assigns `None` to the unrelated, otherwise unused
`_marker` attribute. -/
theorem C9_marker_not_cleared (ticks : Nat) :
    (Spinner.interactivity ⟨none, none, none, defaultIcons, .MARKER⟩ ticks).marker_static
        = some (iconAt defaultIcons ticks)
    ∧ (Spinner.interactivity ⟨none, none, none, defaultIcons, .MARKER⟩ ticks).marker_static
        ≠ none
    ∧ (Spinner.interactivity ⟨none, none, none, defaultIcons, .MARKER⟩ ticks).marker_stray
        = none := by
  obtain ⟨h1, h2⟩ :=
    spinner_interactivity_marker ⟨none, none, none, defaultIcons, .MARKER⟩ rfl ticks
  exact ⟨h1, by rw [h1]; simp, h2⟩

/-- C6 counterexample: a `FileInput` whose validator rejects keeps its
buffer unchanged — `FileInput._interact_validate` has no rejection
branch — refuting the claim's "the input buffer is cleared entirely" for
`FileInput`. -/
theorem C6_counterexample :
    (FileInput.interact_validate ⟨['h', 'i'], "p", none, []⟩ (fun _ => false) "p").1.buffer
      = ['h', 'i']
    ∧ (['h', 'i'] : List Char) ≠ [] :=
  ⟨rfl, by decide⟩

/-- C6 (amended): on Enter, `UserInput` rejection clears the buffer
entirely and signals no completion, while `FileInput` rejection leaves
the state (its buffer included) unchanged; for both, acceptance commits
the buffer-derived response and signals completion (ControlC is
simulated, ending interactivity). -/
theorem C6_validate (u : UserInput) (f : FileInput) (v : String → Bool) (orig : String) :
    ((v u.buffer_as_string = false →
        (u.interact_validate v orig).1.buffer = [] ∧ (u.interact_validate v orig).2 = false)
      ∧ (v u.buffer_as_string = true →
        (u.interact_validate v orig).1.response = some u.buffer_as_string
          ∧ (u.interact_validate v orig).2 = true))
    ∧ ((v (String.mk f.buffer) = false →
        (f.interact_validate v orig).1 = f ∧ (f.interact_validate v orig).2 = false)
      ∧ (v (String.mk f.buffer) = true →
        (f.interact_validate v orig).1.response = some (String.mk f.buffer)
          ∧ (f.interact_validate v orig).1.buffer = f.buffer
          ∧ (f.interact_validate v orig).2 = true)) := by
  constructor
  · constructor
    · intro h
      simp [UserInput.interact_validate, h]
    · intro h
      simp [UserInput.interact_validate, h]
  · constructor
    · intro h
      simp [FileInput.interact_validate, h]
    · intro h
      simp [FileInput.interact_validate, h]

/-- C6 witness: the amended theorem applied to a rejecting validator over
concrete buffers — the `UserInput` buffer is cleared, the `FileInput`
state is untouched. -/
theorem C6_witness :
    (UserInput.interact_validate ⟨['h', 'i'], "p", none⟩ (fun _ => false) "p").1.buffer = []
    ∧ (FileInput.interact_validate ⟨['h', 'i'], "p", none, []⟩ (fun _ => false) "p").1
      = ⟨['h', 'i'], "p", none, []⟩ :=
  ⟨((C6_validate ⟨['h', 'i'], "p", none⟩ ⟨['h', 'i'], "p", none, []⟩
      (fun _ => false) "p").1.1 rfl).1,
    ((C6_validate ⟨['h', 'i'], "p", none⟩ ⟨['h', 'i'], "p", none, []⟩
      (fun _ => false) "p").2.1 rfl).1⟩

/-- C3: evaluating the Enter path at the failing input: a SINGLE-mode
Select over S, M, L on which M has been selected through the working
selection path — `select("M")` then `highlight("M")`, exactly what
`_input_hotkey_select` does in SINGLE mode (the arrow-key path cannot
select anything, see C2) — and the default always-accepting selection
validator.  The answer is M and completion is signalled (ControlC
simulated), but the prompt's recorded response stays `none`:
`Select._input_validate` never assigns `_response`. -/
theorem C3_response_never_committed :
    ((mkSelectFromStrings ["S", "M", "L"] .SINGLE).map
        (fun s0 => (s0.select "M").highlight "M")).map
      (fun s1 => (s1.answer.map PromptOption.text,
        (s1.input_validate selectNoopAlwaysValid).2, s1.response))
      = some (["M"], true, none) := by
  decide

/-- C2: evaluating the focus-move handler at the failing input: for every
Select state and key-press context, `_input_highlighter` raises —
`ValueError` when no option is highlighted, and otherwise
`AttributeError` at the `ctx.key_press` access of select.py line 86 (the
`KeyPressContext` it receives has fields `key`, `keyboard`, `when` and no
`key_press`) — so it never returns a state: focus never moves and
selection is never re-coupled, against the claim's described focus-move
behavior.  In particular a Down press on the SINGLE-mode Select over S,
M, L raises `AttributeError`. -/
theorem C2_focus_move_raises (s : Select) (ctx : KeyPressContext) :
    (s.input_highlighter ctx = .error .valueError
      ∨ s.input_highlighter ctx = .error .attributeError)
    ∧ ((mkSelectFromStrings ["S", "M", "L"] .SINGLE).map
        (fun s0 => s0.input_highlighter ⟨Key.down⟩))
      = some (.error .attributeError) := by
  constructor
  · unfold Select.input_highlighter
    cases h : highlightedInfo s.choices with
    | none => exact Or.inl rfl
    | some p => exact Or.inr rfl
  · rfl

/-- C10 witness: the theorem applied to a listener with three in-flight
hook tasks, stopping from inside task 2. -/
theorem C10_witness :
    (({ background_done := some false, key_hooks := [], active_hooks := [1, 2, 3],
          is_accepting_keys := true : KeyboardListener }).background_done.isSome = true)
    ∧ (∃ kb' reaped,
        ({ background_done := some false, key_hooks := [], active_hooks := [1, 2, 3],
            is_accepting_keys := true : KeyboardListener }).stop false (some 2)
          = .ok (kb', reaped)
        ∧ 2 ∉ reaped
        ∧ (∀ t ∈ [1, 2, 3], t ≠ 2 → t ∈ reaped)
        ∧ (∀ t ∈ reaped, t ∈ [1, 2, 3])
        ∧ kb'.background_done = some true) :=
  ⟨rfl, C10_stop_excludes_current _ false 2 rfl⟩

end Promptique
